import Mathlib

/-!
# sdl_tone_oscillator: path simulator, segment ring buffer and audio synthesizer

A shallow embedding of `src/beam.h`, `src/beam.cpp` and `src/audio.cpp`.

Modelling conventions
* `double` and `float` values are exact rationals (`ℚ`): rounding, infinities and
  NaN are not modelled, and the `double → float` store into the output stream is
  the identity.  The theorems are statements about this exact arithmetic.  Where
  rounding decides a branch or an index of the compiled program (the truncation
  of the rounded quotient `t / dt` at the very end of a segment, the sign of the
  cursor after lines 65 and 74), the exact model does not decide what the program
  does.
* `size_t` values are natural numbers.  Every `size_t` that occurs is bounded by
  the size of an array that exists in memory, so wrap-around is not modelled.
* The ring indices `read_id` / `write_id` (`uint8_t`, only ever assigned `0` or
  a value reduced modulo `BEAM_RB_SIZE`) have type `Fin BEAM_RB_SIZE`.
* A `double*` is `Option (List ℚ)`: `none` is the null pointer, `some pts` an
  array holding `pts`.  Reading outside the array, dividing by a zero `dt`, or
  converting a value `≤ -1` to `size_t` is undefined behaviour, reported by the
  embedding as `Iter.ub` / `none`.
* The SDL device handle and the device lock are not modelled; a push and a fill
  are atomic state transformers (the lock guarantees exactly that).
-/

namespace ToneOscillator

/-! ## Data model (`beam.h`, `audio.cpp`) -/

/-- Segment record `struct BeamData` of `beam.h`. -/
structure BeamData where
  num_points : Nat
  points : Option (List ℚ)
  dt : ℚ
deriving DecidableEq

/-- Path state `struct Beam` of `beam.h`. -/
structure Beam where
  num_edges : Nat
  decay_time : ℚ
  radius : ℚ
  intensity : ℚ
  color : ℚ × ℚ × ℚ
  sim_time : ℚ
  x : ℚ
  y : ℚ
deriving DecidableEq

/-- Generator `void (*SoundGenerator)(double t, double* x, double* y)`: it receives
the time and the addresses of the current position, and leaves the new position
there; as a function, `(t, (x, y)) ↦ (x', y')`. -/
abbrev SoundGenerator := ℚ → ℚ × ℚ → ℚ × ℚ

/-- Ring capacity `#define BEAM_RB_SIZE 10`. -/
abbrev BEAM_RB_SIZE : Nat := 10

/-- Audio state `struct Audio` with its `BeamRingBuffer` inlined
(`beam_data`, `write_id`, `read_id`). -/
structure Audio where
  beam_data : Fin BEAM_RB_SIZE → BeamData
  write_id : Fin BEAM_RB_SIZE
  read_id : Fin BEAM_RB_SIZE
  time_processed : ℚ
  volume : Nat

/-! ## `beam_simulate` (`beam.cpp`) -/

/-- The `for` loop of `beam_simulate` (lines 13-21) with `k` iterations left:
store the current position, advance `time` by `dt`, call the generator.  The
stores go to the indices `2n`, `2n+1` in increasing order, so the array is built
by appending. -/
def beam_simulate_loop (ps : SoundGenerator) (dt : ℚ) :
    Nat → ℚ → ℚ × ℚ → List ℚ → ℚ × (ℚ × ℚ) × List ℚ
  | 0, time, pos, pts => (time, pos, pts)
  | k + 1, time, pos, pts =>
    beam_simulate_loop ps dt k (time + dt) (ps (time + dt) pos) (pts ++ [pos.1, pos.2])

/-- Function `beam_simulate` of `beam.cpp`: returns the updated beam and the segment
written to `*beam_data`. -/
def beam_simulate (beam : Beam) (ps : SoundGenerator) (frame_sec : ℚ) : Beam × BeamData :=
  let dt := frame_sec / (beam.num_edges : ℚ)
  let r := beam_simulate_loop ps dt beam.num_edges beam.sim_time (beam.x, beam.y) []
  ({ beam with x := r.2.1.1, y := r.2.1.2, sim_time := r.1 },
   { num_points := beam.num_edges,
     points := some (r.2.2 ++ [r.2.1.1, r.2.1.2]),
     dt := dt })

/-! ## `audio.cpp` -/

/-- Successful path of `audio_create`: volume 64, cursor 0, both indices 0, every slot's
`points` null.  The `num_points` and `dt` of the slots are left uninitialised by
`new Audio`; `junk` supplies them. -/
def audio_create (junk : Fin BEAM_RB_SIZE → Nat × ℚ) : Audio :=
  { beam_data := fun i => { num_points := (junk i).1, points := none, dt := (junk i).2 },
    write_id := 0,
    read_id := 0,
    time_processed := 0,
    volume := 64 }

/-- Function `audio_set_volume`: store the volume byte. -/
def audio_set_volume (audio : Audio) (volume : Nat) : Audio :=
  { audio with volume := volume }

/-- Function `audio_append_beam_data`: overwrite the slot at `write_id` (its old array
is released) and advance `write_id` modulo `BEAM_RB_SIZE`. -/
def audio_append_beam_data (audio : Audio) (beam_data : BeamData) : Audio :=
  { audio with
    beam_data := Function.update audio.beam_data audio.write_id beam_data,
    write_id := audio.write_id + 1 }

/-- Conversion `double → size_t` (line 46): truncation toward zero; undefined when the
truncated value is negative. -/
def double_to_size_t (q : ℚ) : Option Nat :=
  let z : Int := if 0 ≤ q then ⌊q⌋ else ⌈q⌉
  if z < 0 then none else some z.toNat

/-- Result of one pass through the body of the `for` loop of `audio_callback`. -/
inductive Iter where
  /-- the loop goes round again with this state, `sid` and stream -/
  | next (audio : Audio) (sid : Nat) (fstream : List ℚ)
  /-- the loop is left (guard false, or `break`): line 82 runs next -/
  | brk (audio : Audio) (fstream : List ℚ)
  /-- the function returned from inside the loop (line 75) -/
  | ret (audio : Audio) (fstream : List ℚ)
  /-- undefined behaviour -/
  | ub

/-- Lines 46-57 of `audio_callback`: the interpolated, volume-scaled frame at time `t`
inside segment `current_data` whose array is `pts`; `none` on undefined behaviour. -/
def lerp_frame (current_data : BeamData) (pts : List ℚ) (volume t : ℚ) : Option (ℚ × ℚ) :=
  if current_data.dt = 0 then none
  else
    match double_to_size_t (t / current_data.dt) with
    | none => none
    | some pid =>
      let f : ℚ := (t - current_data.dt * (pid : ℚ)) / current_data.dt
      match pts[2 * pid + 0]?, pts[2 * pid + 2]?, pts[2 * pid + 1]?, pts[2 * pid + 3]? with
      | some x0, some x1, some y0, some y1 =>
        some (volume * ((1 - f) * x0 + f * x1), volume * ((1 - f) * y0 + f * y1))
      | _, _, _, _ => none

/-- One pass of the loop of `audio_callback` (lines 38-80) for `S = len / 8` frames.
The local `current_data` always points at the slot at `read_id` (line 36, line 78). -/
def audio_callback_iter (S : Nat) (audio : Audio) (sid : Nat) (fstream : List ℚ) : Iter :=
  if sid < S then
    match (audio.beam_data audio.read_id).points with
    | none => Iter.brk audio fstream
    | some pts =>
      if audio.time_processed + (sid : ℚ) / 44100 <
          ((audio.beam_data audio.read_id).num_points : ℚ) * (audio.beam_data audio.read_id).dt then
        match lerp_frame (audio.beam_data audio.read_id) pts ((audio.volume : ℚ) / 255)
            (audio.time_processed + (sid : ℚ) / 44100) with
        | none => Iter.ub
        | some lr =>
          Iter.next audio (sid + 1) ((fstream.set (2 * sid + 0) lr.1).set (2 * sid + 1) lr.2)
      else if audio.read_id + 1 = audio.write_id then
        Iter.ret
          { audio with
            read_id := audio.read_id + 1,
            time_processed :=
              audio.time_processed -
                  ((audio.beam_data audio.read_id).num_points : ℚ) *
                    (audio.beam_data audio.read_id).dt +
                (sid : ℚ) / 44100 }
          fstream
      else
        Iter.next
          { audio with
            read_id := audio.read_id + 1,
            time_processed :=
              audio.time_processed -
                ((audio.beam_data audio.read_id).num_points : ℚ) *
                  (audio.beam_data audio.read_id).dt }
          sid fstream
  else Iter.brk audio fstream

/-- Loop variant: ten per frame still to produce, plus the number of slots the read
index can still cross before it meets the write index. -/
def loop_measure (S : Nat) (audio : Audio) (sid : Nat) : Nat :=
  10 * (S - sid) + (audio.write_id.val + 9 - audio.read_id.val) % 10

set_option linter.unusedVariables false in
/-- The `for` loop of `audio_callback`, run to its exit: `some (returned, audio, stream)`
where `returned` tells whether the function returned from inside the loop, or `none`
on undefined behaviour. -/
def audio_callback_loop (S : Nat) (audio : Audio) (sid : Nat) (fstream : List ℚ) :
    Option (Bool × Audio × List ℚ) :=
  match h : audio_callback_iter S audio sid fstream with
  | Iter.next audio' sid' fstream' => audio_callback_loop S audio' sid' fstream'
  | Iter.brk audio' fstream' => some (false, audio', fstream')
  | Iter.ret audio' fstream' => some (true, audio', fstream')
  | Iter.ub => none
termination_by loop_measure S audio sid
decreasing_by
  simp only [loop_measure]
  by_cases h1 : sid < S
  · rcases hp : (audio.beam_data audio.read_id).points with _ | pts
    · simp [audio_callback_iter, h1, hp] at h
    · by_cases ht : audio.time_processed + (sid : ℚ) / 44100 <
          ((audio.beam_data audio.read_id).num_points : ℚ) * (audio.beam_data audio.read_id).dt
      · simp only [audio_callback_iter, h1, hp, ht, if_true] at h
        split at h
        · cases h
        · cases h
          omega
      · by_cases hw : audio.read_id + 1 = audio.write_id
        · simp [audio_callback_iter, h1, hp, ht, hw] at h
        · simp only [audio_callback_iter, h1, hp, ht, hw, if_true, if_false] at h
          cases h
          have hlt : ∀ r w : Fin BEAM_RB_SIZE, r + 1 ≠ w →
              (w.val + 9 - (r + 1).val) % 10 < (w.val + 9 - r.val) % 10 := by decide
          have := hlt audio.read_id audio.write_id hw
          simp only
          omega
  · simp [audio_callback_iter, h1] at h

/-- Function `audio_callback` for a stream of `len` bytes: the stream is zeroed
(`len / 4` floats), the loop runs over `len / 8` frames, and unless the function
returned from inside the loop the cursor advances by `(len / 8) / 44100` (line 82). -/
def audio_callback (audio : Audio) (len : Nat) : Option (Audio × List ℚ) :=
  match audio_callback_loop (len / 8) audio 0 (List.replicate (len / 4) 0) with
  | none => none
  | some (true, audio', fstream) => some (audio', fstream)
  | some (false, audio', fstream) =>
    some ({ audio' with
            time_processed := audio'.time_processed + ((len / 8 : Nat) : ℚ) / 44100 },
          fstream)

/-! ## Vocabulary of the claims -/

/-- The x coordinate of point `n` of an array of interleaved coordinates. -/
def point_x (pts : List ℚ) (n : Nat) : Option ℚ := pts[2 * n]?

/-- The y coordinate of point `n` of an array of interleaved coordinates. -/
def point_y (pts : List ℚ) (n : Nat) : Option ℚ := pts[2 * n + 1]?

/-- Duration the synthesizer gives a segment: `num_points * dt` (line 43). -/
def BeamData.duration (seg : BeamData) : ℚ := (seg.num_points : ℚ) * seg.dt

/-- Sub-step index of the specification: `pid = floor (t / seg.dt)`. -/
def spec_pid (seg : BeamData) (t : ℚ) : Nat := ⌊t / seg.dt⌋.toNat

/-- Fractional position of the specification: `f = (t - pid * seg.dt) / seg.dt`. -/
def spec_frac (seg : BeamData) (t : ℚ) : ℚ := (t - (spec_pid seg t : ℚ) * seg.dt) / seg.dt

/-- Output sample of the specification at time `t` inside `seg` (coordinates `pts`) for the
volume byte `vol`: left is `(vol/255) * ((1-f) * x[pid] + f * x[pid+1])`, right the same
with `y`. -/
def SpecFrame (vol : Nat) (seg : BeamData) (pts : List ℚ) (t : ℚ) (left right : ℚ) : Prop :=
  ∃ x0 x1 y0 y1,
    point_x pts (spec_pid seg t) = some x0 ∧ point_x pts (spec_pid seg t + 1) = some x1 ∧
    point_y pts (spec_pid seg t) = some y0 ∧ point_y pts (spec_pid seg t + 1) = some y1 ∧
    left = ((vol : ℚ) / 255) * ((1 - spec_frac seg t) * x0 + spec_frac seg t * x1) ∧
    right = ((vol : ℚ) / 255) * ((1 - spec_frac seg t) * y0 + spec_frac seg t * y1)

/-- Times `T_n` of `beam_simulate`: `T_0 = T`, `T_n = T_(n-1) + dt`. -/
def sim_time_at (T dt : ℚ) : Nat → ℚ
  | 0 => T
  | n + 1 => sim_time_at T dt n + dt

/-- Positions of the path at the sub-steps of `beam_simulate`: the start position, then the
generator called at `T_n` on the previous position. -/
def position_at (ps : SoundGenerator) (T dt : ℚ) (p0 : ℚ × ℚ) : Nat → ℚ × ℚ
  | 0 => p0
  | n + 1 => ps (sim_time_at T dt (n + 1)) (position_at ps T dt p0 n)

/-- A segment that some call of `beam_simulate` with `edge_count ≥ 1` and
`elapsed_seconds ≥ 0` produces. -/
def Simulated (seg : BeamData) : Prop :=
  ∃ (beam : Beam) (ps : SoundGenerator) (frame_sec : ℚ),
    1 ≤ beam.num_edges ∧ 0 ≤ frame_sec ∧ seg = (beam_simulate beam ps frame_sec).2

/-- States reachable from `audio_create` by pushes of segments satisfying `ok` and by
fills (`audio_callback`) of any length, in any order; the volume byte may be set in between. -/
inductive Reachable (ok : BeamData → Prop) : Audio → Prop where
  | create (junk : Fin BEAM_RB_SIZE → Nat × ℚ) : Reachable ok (audio_create junk)
  | set_volume {audio : Audio} (volume : Nat) :
      Reachable ok audio → volume < 256 → Reachable ok (audio_set_volume audio volume)
  | push {audio : Audio} (seg : BeamData) :
      Reachable ok audio → ok seg → Reachable ok (audio_append_beam_data audio seg)
  | fill {audio : Audio} (len : Nat) {audio' : Audio} {out : List ℚ} :
      Reachable ok audio → audio_callback audio len = some (audio', out) →
      Reachable ok audio'

/-- Loop configurations `(audio, sid, fstream)` the `for` loop of a fill of `S` frames passes
through, starting from a given one. -/
inductive LoopReach (S : Nat) : Audio → Nat → List ℚ → Audio → Nat → List ℚ → Prop where
  | refl (audio : Audio) (sid : Nat) (fstream : List ℚ) :
      LoopReach S audio sid fstream audio sid fstream
  | step {a0 : Audio} {s0 : Nat} {f0 : List ℚ} {a1 : Audio} {s1 : Nat} {f1 : List ℚ}
      {a2 : Audio} {s2 : Nat} {f2 : List ℚ} :
      LoopReach S a0 s0 f0 a1 s1 f1 →
      audio_callback_iter S a1 s1 f1 = Iter.next a2 s2 f2 →
      LoopReach S a0 s0 f0 a2 s2 f2

/-- The state after the first `n` segments of the sequence `segs` were pushed, in order and
with no fill in between. -/
def push_seq (audio : Audio) (segs : Nat → BeamData) : Nat → Audio
  | 0 => audio
  | n + 1 => audio_append_beam_data (push_seq audio segs n) (segs n)

/-- Slot `(w + j) mod BEAM_RB_SIZE`. -/
def slot_index (w : Fin BEAM_RB_SIZE) (j : Nat) : Fin BEAM_RB_SIZE :=
  ⟨(w.val + j) % BEAM_RB_SIZE, Nat.mod_lt _ (by decide)⟩

/-- Beam of the concrete scenario: four edges, at rest in the origin at time 0 (the
rendering parameters are those of `main.cpp`). -/
def scenario_beam : Beam :=
  { num_edges := 4, decay_time := 4 / 100, radius := 1 / 100, intensity := 800,
    color := (1 / 20, 1, 1 / 20), sim_time := 0, x := 0, y := 0 }

/-- Generator of the concrete scenario: with `dt = 0.01` it returns `(n, 0)` at sub-step `n`. -/
def scenario_generator : ℚ → ℚ × ℚ := fun t => (100 * t, 0)

/-- A beam with a single edge, at rest in `(1, 1)`. -/
def unit_beam : Beam := { scenario_beam with num_edges := 1, x := 1, y := 1 }

/-- The segment of one sample period that `beam_simulate` produces for `unit_beam` and the
generator that stays in `(1, 1)`: points `(1,1), (1,1)`, `dt = 1/44100`. -/
def unit_segment : BeamData := (beam_simulate unit_beam (fun _ _ => (1, 1)) (1 / 44100)).2

/-- The state after `audio_create` and `k` rounds of: push `unit_segment`, then a fill of 16
bytes (two frames), which plays the segment and stops starved. -/
def drained_rounds : Nat → Audio
  | 0 => audio_create (fun _ => (0, 0))
  | k + 1 =>
    { audio_append_beam_data (drained_rounds k) unit_segment with
      read_id := (drained_rounds k).read_id + 1,
      time_processed := 0 }

/-- The state after ten such rounds: the indices have gone once round the ring, every slot
still holds the segment that was played from it. -/
def lapped : Audio :=
  { beam_data := fun _ => unit_segment, write_id := 0, read_id := 0, time_processed := 0,
    volume := 64 }

/-- The state `lapped` after its read index advanced past slot 0. -/
def lapped_advanced : Audio :=
  { lapped with read_id := 1, time_processed := -(1 / 44100) }

/-! ## The branches of the loop body -/

theorem iter_done {S : Nat} (audio : Audio) {sid : Nat} (fstream : List ℚ) (h : ¬ sid < S) :
    audio_callback_iter S audio sid fstream = Iter.brk audio fstream := by
  simp [audio_callback_iter, h]

theorem iter_null {S : Nat} {audio : Audio} {sid : Nat} (fstream : List ℚ) (h : sid < S)
    (hp : (audio.beam_data audio.read_id).points = none) :
    audio_callback_iter S audio sid fstream = Iter.brk audio fstream := by
  simp [audio_callback_iter, h, hp]

theorem iter_lerp {S : Nat} {audio : Audio} {sid : Nat} (fstream : List ℚ) {pts : List ℚ}
    (h : sid < S) (hp : (audio.beam_data audio.read_id).points = some pts)
    (ht : audio.time_processed + (sid : ℚ) / 44100 <
      ((audio.beam_data audio.read_id).num_points : ℚ) * (audio.beam_data audio.read_id).dt) :
    audio_callback_iter S audio sid fstream =
      match lerp_frame (audio.beam_data audio.read_id) pts ((audio.volume : ℚ) / 255)
          (audio.time_processed + (sid : ℚ) / 44100) with
      | none => Iter.ub
      | some lr =>
        Iter.next audio (sid + 1) ((fstream.set (2 * sid + 0) lr.1).set (2 * sid + 1) lr.2) := by
  simp [audio_callback_iter, h, hp, ht]

theorem iter_ret {S : Nat} {audio : Audio} {sid : Nat} (fstream : List ℚ) {pts : List ℚ}
    (h : sid < S) (hp : (audio.beam_data audio.read_id).points = some pts)
    (ht : ¬ audio.time_processed + (sid : ℚ) / 44100 <
      ((audio.beam_data audio.read_id).num_points : ℚ) * (audio.beam_data audio.read_id).dt)
    (hw : audio.read_id + 1 = audio.write_id) :
    audio_callback_iter S audio sid fstream =
      Iter.ret
        { audio with
          read_id := audio.read_id + 1,
          time_processed :=
            audio.time_processed -
                ((audio.beam_data audio.read_id).num_points : ℚ) *
                  (audio.beam_data audio.read_id).dt +
              (sid : ℚ) / 44100 }
        fstream := by
  simp [audio_callback_iter, h, hp, ht, hw]

theorem iter_adv {S : Nat} {audio : Audio} {sid : Nat} (fstream : List ℚ) {pts : List ℚ}
    (h : sid < S) (hp : (audio.beam_data audio.read_id).points = some pts)
    (ht : ¬ audio.time_processed + (sid : ℚ) / 44100 <
      ((audio.beam_data audio.read_id).num_points : ℚ) * (audio.beam_data audio.read_id).dt)
    (hw : audio.read_id + 1 ≠ audio.write_id) :
    audio_callback_iter S audio sid fstream =
      Iter.next
        { audio with
          read_id := audio.read_id + 1,
          time_processed :=
            audio.time_processed -
              ((audio.beam_data audio.read_id).num_points : ℚ) *
                (audio.beam_data audio.read_id).dt }
        sid fstream := by
  simp [audio_callback_iter, h, hp, ht, hw]

theorem loop_next {S : Nat} {audio : Audio} {sid : Nat} {fstream : List ℚ}
    {audio' : Audio} {sid' : Nat} {fstream' : List ℚ}
    (h : audio_callback_iter S audio sid fstream = Iter.next audio' sid' fstream') :
    audio_callback_loop S audio sid fstream = audio_callback_loop S audio' sid' fstream' := by
  rw [audio_callback_loop]
  split <;> simp_all

theorem loop_brk {S : Nat} {audio : Audio} {sid : Nat} {fstream : List ℚ}
    {audio' : Audio} {fstream' : List ℚ}
    (h : audio_callback_iter S audio sid fstream = Iter.brk audio' fstream') :
    audio_callback_loop S audio sid fstream = some (false, audio', fstream') := by
  rw [audio_callback_loop]
  split <;> simp_all

theorem loop_ret {S : Nat} {audio : Audio} {sid : Nat} {fstream : List ℚ}
    {audio' : Audio} {fstream' : List ℚ}
    (h : audio_callback_iter S audio sid fstream = Iter.ret audio' fstream') :
    audio_callback_loop S audio sid fstream = some (true, audio', fstream') := by
  rw [audio_callback_loop]
  split <;> simp_all

theorem loop_of_reach {S : Nat} {a0 : Audio} {s0 : Nat} {f0 : List ℚ} {a1 : Audio} {s1 : Nat}
    {f1 : List ℚ} (h : LoopReach S a0 s0 f0 a1 s1 f1) :
    audio_callback_loop S a0 s0 f0 = audio_callback_loop S a1 s1 f1 := by
  induction h with
  | refl => rfl
  | step _ hs ih => rw [ih, loop_next hs]

theorem double_to_size_t_nonneg (q : ℚ) (h : 0 ≤ q) : double_to_size_t q = some ⌊q⌋.toNat := by
  have hz : ¬ (⌊q⌋ < 0) := not_lt.mpr (Int.floor_nonneg.mpr h)
  simp [double_to_size_t, h, hz]

theorem dt_pos_of_lt {seg : BeamData} {t : ℚ} (h0 : 0 ≤ t) (ht : t < (seg.num_points : ℚ) * seg.dt) :
    0 < seg.dt := by
  by_contra hc
  have h1 : seg.dt ≤ 0 := not_lt.mp hc
  have h2 : (seg.num_points : ℚ) * seg.dt ≤ 0 :=
    mul_nonpos_of_nonneg_of_nonpos (Nat.cast_nonneg _) h1
  linarith

theorem spec_pid_lt {seg : BeamData} {t : ℚ} (h0 : 0 ≤ t)
    (ht : t < (seg.num_points : ℚ) * seg.dt) : spec_pid seg t < seg.num_points := by
  have hdt := dt_pos_of_lt h0 ht
  have hq : 0 ≤ t / seg.dt := div_nonneg h0 hdt.le
  unfold spec_pid
  rw [Int.toNat_lt (Int.floor_nonneg.mpr hq), Int.floor_lt]
  rw [div_lt_iff₀ hdt]
  exact_mod_cast ht

/-- Inside a segment (`0 ≤ t < num_points * dt`) whose array holds `num_points + 1` points, lines
46-57 are defined and compute the sample of the specification. -/
theorem lerp_frame_ok {seg : BeamData} {pts : List ℚ} (vol : Nat) {t : ℚ} (h0 : 0 ≤ t)
    (ht : t < (seg.num_points : ℚ) * seg.dt) (hl : 2 * (seg.num_points + 1) ≤ pts.length) :
    ∃ l r, lerp_frame seg pts ((vol : ℚ) / 255) t = some (l, r) ∧ SpecFrame vol seg pts t l r := by
  have hdt := dt_pos_of_lt h0 ht
  have hq : 0 ≤ t / seg.dt := div_nonneg h0 hdt.le
  have hpid := spec_pid_lt h0 ht
  obtain ⟨x0, hx0⟩ : ∃ v, pts[2 * spec_pid seg t + 0]? = some v :=
    ⟨_, List.getElem?_eq_getElem (by omega)⟩
  obtain ⟨x1, hx1⟩ : ∃ v, pts[2 * spec_pid seg t + 2]? = some v :=
    ⟨_, List.getElem?_eq_getElem (by omega)⟩
  obtain ⟨y0, hy0⟩ : ∃ v, pts[2 * spec_pid seg t + 1]? = some v :=
    ⟨_, List.getElem?_eq_getElem (by omega)⟩
  obtain ⟨y1, hy1⟩ : ∃ v, pts[2 * spec_pid seg t + 3]? = some v :=
    ⟨_, List.getElem?_eq_getElem (by omega)⟩
  have hf : (t - seg.dt * (spec_pid seg t : ℚ)) / seg.dt = spec_frac seg t := by
    unfold spec_frac
    rw [mul_comm]
  refine ⟨_, _, ?_, x0, x1, y0, y1, ?_, ?_, ?_, ?_, rfl, rfl⟩
  · unfold lerp_frame
    rw [if_neg hdt.ne', double_to_size_t_nonneg _ hq]
    show (match pts[2 * spec_pid seg t + 0]?, pts[2 * spec_pid seg t + 2]?,
        pts[2 * spec_pid seg t + 1]?, pts[2 * spec_pid seg t + 3]? with
      | some x0, some x1, some y0, some y1 => _
      | _, _, _, _ => _) = _
    rw [hx0, hx1, hy0, hy1]
    simp only [← hf, spec_pid]
  · exact hx0
  · simp only [point_x]
    rw [← hx1]
    congr 1
  · exact hy0
  · simp only [point_y]
    rw [← hy1]
    congr 1

/-- A run of interpolated frames: while `0 ≤ t < num_points * dt` holds for the frames
`sid ≤ j < k`, the loop goes from frame `sid` to frame `k` without touching the state, writing
the samples of the specification into the frames `sid..k-1` and nothing else. -/
theorem lerp_run {S : Nat} {audio : Audio} {pts : List ℚ}
    (hp : (audio.beam_data audio.read_id).points = some pts)
    (hl : 2 * ((audio.beam_data audio.read_id).num_points + 1) ≤ pts.length)
    {sid k : Nat} (hsk : sid ≤ k) (hk : k ≤ S) (fstream : List ℚ) (hf : 2 * S ≤ fstream.length)
    (hr : ∀ j, sid ≤ j → j < k →
      0 ≤ audio.time_processed + (j : ℚ) / 44100 ∧
      audio.time_processed + (j : ℚ) / 44100 < (audio.beam_data audio.read_id).duration) :
    ∃ f', LoopReach S audio sid fstream audio k f' ∧ f'.length = fstream.length ∧
      (∀ j, sid ≤ j → j < k → ∃ l r, f'[2 * j]? = some l ∧ f'[2 * j + 1]? = some r ∧
        SpecFrame audio.volume (audio.beam_data audio.read_id) pts
          (audio.time_processed + (j : ℚ) / 44100) l r) ∧
      (∀ i, i < 2 * sid ∨ 2 * k ≤ i → f'[i]? = fstream[i]?) := by
  induction k, hsk using Nat.le_induction with
  | base =>
    exact ⟨fstream, LoopReach.refl _ _ _, rfl, fun j h1 h2 => absurd h1 (by omega), fun _ _ => rfl⟩
  | succ k hsk ih =>
    obtain ⟨f', hreach, hlen, hfr, hout⟩ := ih (by omega) (fun j h1 h2 => hr j h1 (by omega))
    obtain ⟨h0, ht⟩ := hr k hsk (by omega)
    obtain ⟨l, r, hlf, hspec⟩ := lerp_frame_ok audio.volume h0 ht hl
    have hit := iter_lerp f' (by omega : k < S) hp ht
    rw [hlf] at hit
    refine ⟨(f'.set (2 * k + 0) l).set (2 * k + 1) r, LoopReach.step hreach hit, ?_, ?_, ?_⟩
    · simp only [List.length_set, hlen]
    · intro j h1 h2
      rcases Nat.lt_or_eq_of_le (Nat.lt_succ_iff.mp h2) with hlt | heq
      · obtain ⟨l', r', ha, hb, hs⟩ := hfr j h1 hlt
        refine ⟨l', r', ?_, ?_, hs⟩
        · rw [List.getElem?_set_ne (by omega), List.getElem?_set_ne (by omega), ha]
        · rw [List.getElem?_set_ne (by omega), List.getElem?_set_ne (by omega), hb]
      · subst heq
        refine ⟨l, r, ?_, ?_, hspec⟩
        · rw [List.getElem?_set_ne (by omega)]
          exact List.getElem?_set_self (by omega)
        · exact List.getElem?_set_self (by simp only [List.length_set]; omega)
    · intro i hi
      rw [List.getElem?_set_ne (by omega), List.getElem?_set_ne (by omega)]
      exact hout i (by omega)

/-! ## `beam_simulate` -/

theorem sim_time_at_shift (T dt : ℚ) (n : Nat) :
    sim_time_at (T + dt) dt n = sim_time_at T dt (n + 1) := by
  induction n with
  | zero => rfl
  | succ n ih => simp only [sim_time_at] at ih ⊢; rw [ih]

theorem position_at_shift (ps : SoundGenerator) (T dt : ℚ) (p0 : ℚ × ℚ) (n : Nat) :
    position_at ps (T + dt) dt (ps (T + dt) p0) n = position_at ps T dt p0 (n + 1) := by
  induction n with
  | zero => simp [position_at, sim_time_at]
  | succ n ih =>
    rw [position_at, ih, sim_time_at_shift]
    rfl

theorem sim_time_at_eq (T dt : ℚ) (n : Nat) : sim_time_at T dt n = T + (n : ℚ) * dt := by
  induction n with
  | zero => simp [sim_time_at]
  | succ n ih => rw [sim_time_at, ih]; push_cast; ring

/-- What the loop of `beam_simulate` leaves after `k` iterations: the time `T_k`, the position
after `k` sub-steps, and the array extended by the `k` positions before each sub-step. -/
theorem beam_simulate_loop_spec (ps : SoundGenerator) (dt : ℚ) (k : Nat) (time : ℚ)
    (pos : ℚ × ℚ) (pts : List ℚ) :
    (beam_simulate_loop ps dt k time pos pts).1 = sim_time_at time dt k ∧
    (beam_simulate_loop ps dt k time pos pts).2.1 = position_at ps time dt pos k ∧
    (beam_simulate_loop ps dt k time pos pts).2.2.length = pts.length + 2 * k ∧
    (∀ i, i < pts.length → (beam_simulate_loop ps dt k time pos pts).2.2[i]? = pts[i]?) ∧
    (∀ n, n < k →
      (beam_simulate_loop ps dt k time pos pts).2.2[pts.length + 2 * n]? =
        some (position_at ps time dt pos n).1 ∧
      (beam_simulate_loop ps dt k time pos pts).2.2[pts.length + 2 * n + 1]? =
        some (position_at ps time dt pos n).2) := by
  induction k generalizing time pos pts with
  | zero => simp [beam_simulate_loop, sim_time_at, position_at]
  | succ k ih =>
    obtain ⟨h1, h2, h3, h4, h5⟩ := ih (time + dt) (ps (time + dt) pos) (pts ++ [pos.1, pos.2])
    simp only [beam_simulate_loop]
    refine ⟨?_, ?_, ?_, ?_, ?_⟩
    · rw [h1, sim_time_at_shift]
    · rw [h2, position_at_shift]
    · rw [h3]
      simp only [List.length_append, List.length_cons, List.length_nil]
      omega
    · intro i hi
      rw [h4 i (by simp only [List.length_append]; omega)]
      exact List.getElem?_append_left hi
    · intro n hn
      cases n with
      | zero =>
        have ha := h4 pts.length (by simp)
        have hb := h4 (pts.length + 1) (by simp)
        simp only [Nat.mul_zero, Nat.add_zero, position_at]
        rw [ha, hb]
        constructor
        · rw [List.getElem?_append_right (le_refl _)]
          simp
        · rw [List.getElem?_append_right (by omega)]
          simp
      | succ m =>
        obtain ⟨ha, hb⟩ := h5 m (by omega)
        rw [position_at_shift] at ha hb
        simp only [List.length_append, List.length_cons, List.length_nil] at ha hb
        have e1 : pts.length + 2 * (m + 1) = pts.length + (0 + 1 + 1) + 2 * m := by omega
        have e2 : pts.length + 2 * (m + 1) + 1 = pts.length + (0 + 1 + 1) + 2 * m + 1 := by omega
        rw [e2, e1]
        exact ⟨ha, hb⟩

/-- The array `beam_simulate` writes: `2 * (num_edges + 1)` coordinates, point `n` being the
position after `n` sub-steps. -/
theorem beam_simulate_points (beam : Beam) (ps : SoundGenerator) (frame_sec : ℚ) :
    ∃ pts, (beam_simulate beam ps frame_sec).2.points = some pts ∧
      pts.length = 2 * (beam.num_edges + 1) ∧
      ∀ n, n ≤ beam.num_edges →
        point_x pts n = some (position_at ps beam.sim_time
          (frame_sec / (beam.num_edges : ℚ)) (beam.x, beam.y) n).1 ∧
        point_y pts n = some (position_at ps beam.sim_time
          (frame_sec / (beam.num_edges : ℚ)) (beam.x, beam.y) n).2 := by
  obtain ⟨_, h2, h3, h4, h5⟩ := beam_simulate_loop_spec ps (frame_sec / (beam.num_edges : ℚ))
    beam.num_edges beam.sim_time (beam.x, beam.y) []
  refine ⟨_, rfl, ?_, ?_⟩
  · simp only [List.length_append, h3, List.length_cons, List.length_nil]
    omega
  · intro n hn
    simp only [point_x, point_y]
    rcases Nat.lt_or_eq_of_le hn with hlt | heq
    · obtain ⟨ha, hb⟩ := h5 n hlt
      simp only [List.length_nil, Nat.zero_add] at ha hb
      constructor
      · rw [List.getElem?_append_left (by rw [h3]; simp only [List.length_nil]; omega)]
        exact ha
      · rw [List.getElem?_append_left (by rw [h3]; simp only [List.length_nil]; omega)]
        exact hb
    · subst heq
      simp only [List.length_nil, Nat.zero_add] at h3
      constructor
      · rw [List.getElem?_append_right (by omega)]
        simp [h3, h2]
      · rw [List.getElem?_append_right (by omega)]
        simp [h3, h2]

theorem beam_simulate_state (beam : Beam) (ps : SoundGenerator) (frame_sec : ℚ) :
    (beam_simulate beam ps frame_sec).1 =
      { beam with
        x := (position_at ps beam.sim_time (frame_sec / (beam.num_edges : ℚ))
          (beam.x, beam.y) beam.num_edges).1,
        y := (position_at ps beam.sim_time (frame_sec / (beam.num_edges : ℚ))
          (beam.x, beam.y) beam.num_edges).2,
        sim_time := sim_time_at beam.sim_time (frame_sec / (beam.num_edges : ℚ))
          beam.num_edges } := by
  obtain ⟨h1, h2, _⟩ := beam_simulate_loop_spec ps (frame_sec / (beam.num_edges : ℚ))
    beam.num_edges beam.sim_time (beam.x, beam.y) []
  simp only [beam_simulate, h1, h2]

theorem position_at_pure (g : ℚ → ℚ × ℚ) (T dt : ℚ) (p0 : ℚ × ℚ) (n : Nat) (hn : 1 ≤ n) :
    position_at (fun t _ => g t) T dt p0 n = g (sim_time_at T dt n) := by
  cases n with
  | zero => omega
  | succ m => rfl

theorem beam_simulate_duration (beam : Beam) (ps : SoundGenerator) (frame_sec : ℚ)
    (hE : 1 ≤ beam.num_edges) : (beam_simulate beam ps frame_sec).2.duration = frame_sec := by
  have hpos : (0 : ℚ) < (beam.num_edges : ℚ) := by exact_mod_cast hE
  show (beam.num_edges : ℚ) * (frame_sec / (beam.num_edges : ℚ)) = frame_sec
  field_simp

/-- C2 (as stated, refuted): for `edge_count = 4` the reported `num_points` is not
`edge_count + 1 = 5`; `beam_simulate` reports `edge_count`. -/
theorem C2_counterexample :
    ¬ ((beam_simulate scenario_beam (fun t _ => scenario_generator t) (4 / 100)).2.num_points =
        scenario_beam.num_edges + 1) := by
  simp [beam_simulate, scenario_beam]

/-- C2 (amended): for `edge_count ≥ 1` and `elapsed_seconds ≥ 0` the segment of `beam_simulate`
stores exactly `edge_count + 1` points (`2 * (edge_count + 1)` coordinates) but reports
`num_points = edge_count`, one less; its `dt` is `elapsed_seconds / edge_count`, which is `0`
only when `elapsed_seconds = 0`, and `num_points * dt` is `elapsed_seconds`. -/
theorem C2_segment_shape (beam : Beam) (ps : SoundGenerator) (frame_sec : ℚ)
    (hE : 1 ≤ beam.num_edges) (he : 0 ≤ frame_sec) :
    (∃ pts, (beam_simulate beam ps frame_sec).2.points = some pts ∧
      pts.length = 2 * (beam.num_edges + 1) ∧
      ∀ n, n ≤ beam.num_edges → (point_x pts n).isSome ∧ (point_y pts n).isSome) ∧
    (beam_simulate beam ps frame_sec).2.num_points = beam.num_edges ∧
    (beam_simulate beam ps frame_sec).2.dt = frame_sec / (beam.num_edges : ℚ) ∧
    ((beam_simulate beam ps frame_sec).2.dt = 0 ↔ frame_sec = 0) ∧
    (beam_simulate beam ps frame_sec).2.duration = frame_sec := by
  have hpos : (0 : ℚ) < (beam.num_edges : ℚ) := by exact_mod_cast hE
  have _ := he
  obtain ⟨pts, hp, hl, hn⟩ := beam_simulate_points beam ps frame_sec
  refine ⟨⟨pts, hp, hl, fun n h => ?_⟩, rfl, rfl, ?_, ?_⟩
  · rw [(hn n h).1, (hn n h).2]
    exact ⟨rfl, rfl⟩
  · show frame_sec / (beam.num_edges : ℚ) = 0 ↔ frame_sec = 0
    rw [div_eq_zero_iff]
    constructor
    · rintro (h | h)
      · exact h
      · exact absurd h hpos.ne'
    · exact fun h => Or.inl h
  · exact beam_simulate_duration beam ps frame_sec hE

/-- C2 (amended) at the concrete scenario `edge_count = 4`, `elapsed_seconds = 0.04`. -/
theorem C2_segment_shape_witness :
    1 ≤ scenario_beam.num_edges ∧ (0 : ℚ) ≤ 4 / 100 ∧
    (beam_simulate scenario_beam (fun t _ => scenario_generator t) (4 / 100)).2.num_points =
      scenario_beam.num_edges ∧
    (beam_simulate scenario_beam (fun t _ => scenario_generator t) (4 / 100)).2.duration =
      4 / 100 :=
  ⟨by decide, by norm_num,
    (C2_segment_shape scenario_beam (fun t _ => scenario_generator t) (4 / 100) (by decide)
      (by norm_num)).2.1,
    (C2_segment_shape scenario_beam (fun t _ => scenario_generator t) (4 / 100) (by decide)
      (by norm_num)).2.2.2.2⟩

/-- C3: for a state at `(x0, y0)` with time `T` and `E ≥ 1` edges, `elapsed_seconds ≥ 0` and a
generator `g` of time, `beam_simulate` stores `(x0, y0)` as point 0 and `g (T_n)` as point `n`
for `n = 1..E`, where `T_0 = T`, `T_n = T_(n-1) + dt`, `dt = elapsed_seconds / E`; afterwards the
position is point `E`, the time is `T_E`, and edge count, decay, radius, intensity and colour
are unchanged. -/
theorem C3_beam_simulate_trace (beam : Beam) (g : ℚ → ℚ × ℚ) (frame_sec : ℚ)
    (hE : 1 ≤ beam.num_edges) (he : 0 ≤ frame_sec) :
    ∃ pts, (beam_simulate beam (fun t _ => g t) frame_sec).2.points = some pts ∧
      (beam_simulate beam (fun t _ => g t) frame_sec).2.dt =
        frame_sec / (beam.num_edges : ℚ) ∧
      point_x pts 0 = some beam.x ∧ point_y pts 0 = some beam.y ∧
      (∀ n, 1 ≤ n → n ≤ beam.num_edges →
        point_x pts n =
          some (g (sim_time_at beam.sim_time (frame_sec / (beam.num_edges : ℚ)) n)).1 ∧
        point_y pts n =
          some (g (sim_time_at beam.sim_time (frame_sec / (beam.num_edges : ℚ)) n)).2) ∧
      point_x pts beam.num_edges =
        some (beam_simulate beam (fun t _ => g t) frame_sec).1.x ∧
      point_y pts beam.num_edges =
        some (beam_simulate beam (fun t _ => g t) frame_sec).1.y ∧
      (beam_simulate beam (fun t _ => g t) frame_sec).1.sim_time =
        sim_time_at beam.sim_time (frame_sec / (beam.num_edges : ℚ)) beam.num_edges ∧
      (beam_simulate beam (fun t _ => g t) frame_sec).1.num_edges = beam.num_edges ∧
      (beam_simulate beam (fun t _ => g t) frame_sec).1.decay_time = beam.decay_time ∧
      (beam_simulate beam (fun t _ => g t) frame_sec).1.radius = beam.radius ∧
      (beam_simulate beam (fun t _ => g t) frame_sec).1.intensity = beam.intensity ∧
      (beam_simulate beam (fun t _ => g t) frame_sec).1.color = beam.color := by
  have _ := hE
  have _ := he
  obtain ⟨pts, hp, _, hn⟩ := beam_simulate_points beam (fun t _ => g t) frame_sec
  have hs := beam_simulate_state beam (fun t _ => g t) frame_sec
  refine ⟨pts, hp, rfl, (hn 0 (Nat.zero_le _)).1, (hn 0 (Nat.zero_le _)).2, ?_, ?_, ?_,
    ?_, ?_, ?_, ?_, ?_, ?_⟩
  · intro n h1 h2
    have := hn n h2
    rw [position_at_pure g _ _ _ n h1] at this
    exact this
  · rw [(hn _ (le_refl _)).1, hs]
  · rw [(hn _ (le_refl _)).2, hs]
  all_goals rw [hs]

/-- C3 at the concrete scenario: `E = 4`, `elapsed_seconds = 0.04`, start `(0,0)` at time 0,
generator `(100 t, 0)`: point 2 is `(2, 0)` and the state ends at time `0.04`. -/
theorem C3_beam_simulate_trace_witness :
    1 ≤ scenario_beam.num_edges ∧ (0 : ℚ) ≤ 4 / 100 ∧
    ∃ pts, (beam_simulate scenario_beam (fun t _ => scenario_generator t) (4 / 100)).2.points =
        some pts ∧
      point_x pts 0 = some 0 ∧ point_y pts 0 = some 0 ∧
      point_x pts 2 = some 2 ∧ point_y pts 2 = some 0 ∧
      (beam_simulate scenario_beam (fun t _ => scenario_generator t) (4 / 100)).1.sim_time =
        4 / 100 := by
  obtain ⟨pts, hp, _, hx0, hy0, hn, _, _, ht, _⟩ :=
    C3_beam_simulate_trace scenario_beam scenario_generator (4 / 100) (by decide) (by norm_num)
  refine ⟨by decide, by norm_num, pts, hp, hx0, hy0, ?_, ?_, ?_⟩
  · rw [(hn 2 (by decide) (by decide)).1]
    simp only [sim_time_at, scenario_generator, scenario_beam]
    norm_num
  · rw [(hn 2 (by decide) (by decide)).2]
    simp only [scenario_generator]
  · rw [ht]
    simp only [sim_time_at, scenario_beam]
    norm_num

/-- C4: when `beam_simulate` is called with `e1` and then again with `e2` on the state the
first call left, the last stored point of the first segment (index `edge_count`) is the first
stored point of the second segment (index 0), in both coordinates. -/
theorem C4_boundary_continuity (beam : Beam) (ps : SoundGenerator) (e1 e2 : ℚ)
    (hE : 1 ≤ beam.num_edges) (h1 : 0 ≤ e1) (h2 : 0 ≤ e2) :
    ∃ pts1 pts2 x y,
      (beam_simulate beam ps e1).2.points = some pts1 ∧
      (beam_simulate (beam_simulate beam ps e1).1 ps e2).2.points = some pts2 ∧
      point_x pts1 beam.num_edges = some x ∧ point_x pts2 0 = some x ∧
      point_y pts1 beam.num_edges = some y ∧ point_y pts2 0 = some y := by
  have _ := hE
  have _ := h1
  have _ := h2
  obtain ⟨pts1, hp1, _, hn1⟩ := beam_simulate_points beam ps e1
  obtain ⟨pts2, hp2, _, hn2⟩ := beam_simulate_points (beam_simulate beam ps e1).1 ps e2
  have hs := beam_simulate_state beam ps e1
  refine ⟨pts1, pts2, _, _, hp1, hp2, (hn1 _ (le_refl _)).1, ?_, (hn1 _ (le_refl _)).2, ?_⟩
  · rw [(hn2 0 (Nat.zero_le _)).1, hs]
    rfl
  · rw [(hn2 0 (Nat.zero_le _)).2, hs]
    rfl

/-- C4 at the concrete scenario: two successive calls with `0.04` and `0.02` seconds; the
first segment ends, and the second starts, at `(4, 0)`. -/
theorem C4_boundary_continuity_witness :
    1 ≤ scenario_beam.num_edges ∧ (0 : ℚ) ≤ 4 / 100 ∧ (0 : ℚ) ≤ 2 / 100 ∧
    ∃ pts1 pts2 x y,
      (beam_simulate scenario_beam (fun t _ => scenario_generator t) (4 / 100)).2.points =
        some pts1 ∧
      (beam_simulate
        (beam_simulate scenario_beam (fun t _ => scenario_generator t) (4 / 100)).1
        (fun t _ => scenario_generator t) (2 / 100)).2.points = some pts2 ∧
      point_x pts1 scenario_beam.num_edges = some x ∧ point_x pts2 0 = some x ∧
      point_y pts1 scenario_beam.num_edges = some y ∧ point_y pts2 0 = some y :=
  ⟨by decide, by norm_num, by norm_num,
    C4_boundary_continuity scenario_beam (fun t _ => scenario_generator t) (4 / 100) (2 / 100)
      (by decide) (by norm_num) (by norm_num)⟩

/-! ## Fills inside one segment -/

theorem callback_of_brk {audio audio' : Audio} {len : Nat} {f : List ℚ}
    (h : audio_callback_loop (len / 8) audio 0 (List.replicate (len / 4) 0) =
      some (false, audio', f)) :
    audio_callback audio len =
      some ({ audio' with
              time_processed := audio'.time_processed + ((len / 8 : Nat) : ℚ) / 44100 }, f) := by
  simp only [audio_callback, h]

theorem callback_of_ret {audio audio' : Audio} {len : Nat} {f : List ℚ}
    (h : audio_callback_loop (len / 8) audio 0 (List.replicate (len / 4) 0) =
      some (true, audio', f)) :
    audio_callback audio len = some (audio', f) := by
  simp only [audio_callback, h]

/-- A fill that exhausts the segment at the read index at frame `i` while the next slot is the
write slot: the frames before `i` are the samples of the specification, the others stay zero,
the read index moves onto the write index and the cursor keeps the overshoot. -/
theorem fill_until_starved (audio : Audio) (len : Nat) (pts : List ℚ)
    (hp : (audio.beam_data audio.read_id).points = some pts)
    (hl : 2 * ((audio.beam_data audio.read_id).num_points + 1) ≤ pts.length)
    (h0 : 0 ≤ audio.time_processed) (i : Nat) (hi : i < len / 8)
    (hbefore : ∀ j, j < i →
      audio.time_processed + (j : ℚ) / 44100 < (audio.beam_data audio.read_id).duration)
    (hat : (audio.beam_data audio.read_id).duration ≤ audio.time_processed + (i : ℚ) / 44100)
    (hw : audio.read_id + 1 = audio.write_id) :
    ∃ out, audio_callback audio len =
        some ({ audio with
                read_id := audio.read_id + 1,
                time_processed :=
                  audio.time_processed - (audio.beam_data audio.read_id).duration +
                    (i : ℚ) / 44100 },
              out) ∧
      out.length = len / 4 ∧
      (∀ j, j < i → ∃ l r, out[2 * j]? = some l ∧ out[2 * j + 1]? = some r ∧
        SpecFrame audio.volume (audio.beam_data audio.read_id) pts
          (audio.time_processed + (j : ℚ) / 44100) l r) ∧
      ∀ j, i ≤ j → j < len / 8 → out[2 * j]? = some 0 ∧ out[2 * j + 1]? = some 0 := by
  have hr : ∀ j, 0 ≤ j → j < i →
      0 ≤ audio.time_processed + (j : ℚ) / 44100 ∧
      audio.time_processed + (j : ℚ) / 44100 < (audio.beam_data audio.read_id).duration :=
    fun j _ hj => ⟨by positivity, hbefore j hj⟩
  obtain ⟨f', hreach, hlen, hfr, hout⟩ := lerp_run hp hl (Nat.zero_le i) (le_of_lt hi)
    (List.replicate (len / 4) 0) (by simp only [List.length_replicate]; omega) hr
  have hloop := loop_of_reach hreach
  rw [loop_ret (iter_ret f' hi hp (not_lt.mpr hat) hw)] at hloop
  refine ⟨f', callback_of_ret hloop, ?_, fun j hj => hfr j (Nat.zero_le _) hj, ?_⟩
  · rw [hlen, List.length_replicate]
  · intro j h1 h2
    rw [hout (2 * j) (Or.inr (by omega)), hout (2 * j + 1) (Or.inr (by omega))]
    simp only [List.getElem?_replicate]
    constructor
    · rw [if_pos (by omega)]
    · rw [if_pos (by omega)]

/-! ## Case analysis of one pass -/

/-- A fill that finds the slot at the read index empty leaves the stream zero and adds the
whole `(len / 8) / 44100` to the cursor (the `break` of line 40 leads to line 82). -/
theorem fill_empty_slot (audio : Audio) (len : Nat)
    (hp : (audio.beam_data audio.read_id).points = none) :
    audio_callback audio len =
      some ({ audio with
              time_processed := audio.time_processed + ((len / 8 : Nat) : ℚ) / 44100 },
            List.replicate (len / 4) 0) := by
  by_cases h : 0 < len / 8
  · exact callback_of_brk (loop_brk (iter_null _ h hp))
  · exact callback_of_brk (loop_brk (iter_done audio _ h))

/-- C5 (the code at the claim's input): the first fill after `audio_create`, with no push,
writes only zeros and leaves both indices at 0 and every slot empty, but it ends with
`time_processed = (len / 8) / 44100`, which is not 0 as soon as the fill has a frame. -/
theorem C5_first_fill_advances_cursor (junk : Fin BEAM_RB_SIZE → Nat × ℚ) (len : Nat) :
    ∃ audio', audio_callback (audio_create junk) len =
        some (audio', List.replicate (len / 4) 0) ∧
      audio'.read_id = 0 ∧ audio'.write_id = 0 ∧
      (∀ k, (audio'.beam_data k).points = none) ∧
      audio'.time_processed = ((len / 8 : Nat) : ℚ) / 44100 ∧
      (audio'.time_processed = 0 ↔ len / 8 = 0) := by
  refine ⟨_, fill_empty_slot (audio_create junk) len rfl, rfl, rfl, fun k => rfl, ?_, ?_⟩
  · show (0 : ℚ) + ((len / 8 : Nat) : ℚ) / 44100 = ((len / 8 : Nat) : ℚ) / 44100
    rw [zero_add]
  · show (0 : ℚ) + ((len / 8 : Nat) : ℚ) / 44100 = 0 ↔ len / 8 = 0
    rw [zero_add, div_eq_zero_iff]
    constructor
    · rintro (h | h)
      · exact_mod_cast h
      · norm_num at h
    · intro h
      left
      exact_mod_cast h

theorem fin_lt (w : Fin BEAM_RB_SIZE) : w.val < 10 := w.isLt

theorem fin_val_succ (w : Fin BEAM_RB_SIZE) : (w + 1).val = (w.val + 1) % 10 :=
  Fin.val_add w 1

theorem slot_index_val (w : Fin BEAM_RB_SIZE) (j : Nat) :
    (slot_index w j).val = (w.val + j) % 10 := rfl

theorem slot_index_ne (w : Fin BEAM_RB_SIZE) {j n : Nat} (h1 : j < n) (h2 : n < j + 10) :
    slot_index w j ≠ slot_index w n := by
  intro h
  have h' := congrArg Fin.val h
  rw [slot_index_val, slot_index_val] at h'
  omega

theorem push_seq_spec (audio : Audio) (segs : Nat → BeamData) (n : Nat) :
    (push_seq audio segs n).write_id = slot_index audio.write_id n ∧
    (push_seq audio segs n).read_id = audio.read_id ∧
    (push_seq audio segs n).time_processed = audio.time_processed ∧
    (push_seq audio segs n).volume = audio.volume ∧
    ∀ j, j < n → n ≤ j + 10 →
      (push_seq audio segs n).beam_data (slot_index audio.write_id j) = segs j := by
  induction n with
  | zero =>
    refine ⟨?_, rfl, rfl, rfl, fun j h _ => absurd h (Nat.not_lt_zero j)⟩
    apply Fin.ext
    rw [slot_index_val]
    have := fin_lt audio.write_id
    simp only [push_seq]
    omega
  | succ n ih =>
    obtain ⟨hw, hr, ht, hv, hs⟩ := ih
    refine ⟨?_, hr, ht, hv, ?_⟩
    · show (push_seq audio segs n).write_id + 1 = _
      rw [hw]
      apply Fin.ext
      rw [fin_val_succ, slot_index_val, slot_index_val]
      omega
    · intro j hj hn
      show Function.update (push_seq audio segs n).beam_data (push_seq audio segs n).write_id
        (segs n) (slot_index audio.write_id j) = segs j
      rw [hw]
      rcases Nat.lt_or_eq_of_le (Nat.lt_succ_iff.mp hj) with hlt | heq
      · rw [Function.update_noteq (slot_index_ne audio.write_id hlt (by omega))]
        exact hs j hlt (by omega)
      · subst heq
        rw [Function.update_same]

theorem slot_index_surj (w k : Fin BEAM_RB_SIZE) :
    ∃ j, 1 ≤ j ∧ j < 11 ∧ k = slot_index w j := by
  refine ⟨(k.val + 9 - w.val) % 10 + 1, by omega, by omega, ?_⟩
  apply Fin.ext
  rw [slot_index_val]
  have := fin_lt w
  have := fin_lt k
  omega

/-- C9: from any state with write index `w`, pushing the eleven segments `s_1 .. s_11` (here
`segs 0 .. segs 10`) with no fill in between: the push of `s_j` stores it in slot `(w + j - 1) mod
10`; afterwards every slot holds one of `s_2 .. s_11`, each in its own slot, and the slot that
held `s_1` holds `s_11`, so `s_1` is in no slot (unless a later segment equals it); write is `(w +
11) mod 10 = (w + 1) mod 10`, and read and `time_processed` are unchanged.  A push is a total
function: it cannot fail. -/
theorem C9_overwrite_policy (audio : Audio) (segs : Nat → BeamData) :
    (∀ j, j < 11 →
      (push_seq audio segs (j + 1)).beam_data (slot_index audio.write_id j) = segs j) ∧
    (∀ j, 1 ≤ j → j < 11 →
      (push_seq audio segs 11).beam_data (slot_index audio.write_id j) = segs j) ∧
    (∀ k, ∃ j, 1 ≤ j ∧ j < 11 ∧ k = slot_index audio.write_id j ∧
      (push_seq audio segs 11).beam_data k = segs j) ∧
    ((∀ j, 1 ≤ j → j < 11 → segs j ≠ segs 0) →
      ∀ k, (push_seq audio segs 11).beam_data k ≠ segs 0) ∧
    (push_seq audio segs 11).beam_data (slot_index audio.write_id 0) = segs 10 ∧
    (push_seq audio segs 11).write_id = slot_index audio.write_id 11 ∧
    (push_seq audio segs 11).write_id = audio.write_id + 1 ∧
    (push_seq audio segs 11).read_id = audio.read_id ∧
    (push_seq audio segs 11).time_processed = audio.time_processed := by
  obtain ⟨hw, hr, ht, _, hs⟩ := push_seq_spec audio segs 11
  have hall : ∀ k, ∃ j, 1 ≤ j ∧ j < 11 ∧ k = slot_index audio.write_id j ∧
      (push_seq audio segs 11).beam_data k = segs j := by
    intro k
    obtain ⟨j, h1, h2, rfl⟩ := slot_index_surj audio.write_id k
    exact ⟨j, h1, h2, rfl, hs j h2 (by omega)⟩
  refine ⟨fun j _ => (push_seq_spec audio segs (j + 1)).2.2.2.2 j (by omega) (by omega),
    fun j h1 h2 => hs j h2 (by omega), hall, ?_, ?_, hw, ?_, hr, ht⟩
  · intro hne k
    obtain ⟨j, h1, h2, _, hk⟩ := hall k
    rw [hk]
    exact hne j h1 h2
  · have e : slot_index audio.write_id 0 = slot_index audio.write_id 10 := by
      apply Fin.ext
      rw [slot_index_val, slot_index_val]
      omega
    rw [e]
    exact hs 10 (by omega) (by omega)
  · rw [hw]
    apply Fin.ext
    rw [fin_val_succ, slot_index_val]
    omega

/-! ## A fill that starts starved after one lap of the ring -/

theorem unit_segment_eq :
    unit_segment = { num_points := 1, points := some [1, 1, 1, 1], dt := 1 / 44100 } := by
  simp only [unit_segment, beam_simulate, unit_beam, scenario_beam, beam_simulate_loop]
  norm_num

theorem unit_segment_simulated : Simulated unit_segment :=
  ⟨unit_beam, fun _ _ => (1, 1), 1 / 44100, by decide, by norm_num, rfl⟩

theorem unit_lerp (vol : ℚ) : lerp_frame unit_segment [1, 1, 1, 1] vol 0 = some (vol, vol) := by
  rw [unit_segment_eq]
  have h : double_to_size_t ((0 : ℚ) / (1 / 44100)) = some 0 := by
    rw [double_to_size_t_nonneg _ (by norm_num)]
    simp
  unfold lerp_frame
  simp only [h]
  norm_num

theorem drained_rounds_spec (k : Nat) :
    Reachable Simulated (drained_rounds k) ∧
    (drained_rounds k).read_id = (drained_rounds k).write_id ∧
    (drained_rounds k).time_processed = 0 := by
  induction k with
  | zero => exact ⟨Reachable.create _, rfl, rfl⟩
  | succ k ih =>
    obtain ⟨hr, hrw, ht⟩ := ih
    refine ⟨?_, ?_, rfl⟩
    · have hslot : (audio_append_beam_data (drained_rounds k) unit_segment).beam_data
          (audio_append_beam_data (drained_rounds k) unit_segment).read_id = unit_segment := by
        show Function.update (drained_rounds k).beam_data (drained_rounds k).write_id
          unit_segment (drained_rounds k).read_id = unit_segment
        rw [hrw, Function.update_same]
      have hdur : unit_segment.duration = 1 / 44100 := by
        rw [unit_segment_eq]
        norm_num [BeamData.duration]
      obtain ⟨out, hcb, _⟩ := fill_until_starved
        (audio_append_beam_data (drained_rounds k) unit_segment) 16 [1, 1, 1, 1]
        (by rw [hslot, unit_segment_eq])
        (by rw [hslot, unit_segment_eq]; decide)
        (le_of_eq ht.symm) 1 (by decide)
        (by
          intro j hj
          obtain rfl : j = 0 := by omega
          rw [hslot, hdur]
          show (drained_rounds k).time_processed + _ < _
          rw [ht]
          norm_num)
        (by
          rw [hslot, hdur]
          show _ ≤ (drained_rounds k).time_processed + _
          rw [ht]
          norm_num)
        (by
          show (drained_rounds k).read_id + 1 = (drained_rounds k).write_id + 1
          rw [hrw])
      have hst : ({ audio_append_beam_data (drained_rounds k) unit_segment with
            read_id := (audio_append_beam_data (drained_rounds k) unit_segment).read_id + 1,
            time_processed :=
              (audio_append_beam_data (drained_rounds k) unit_segment).time_processed -
                ((audio_append_beam_data (drained_rounds k) unit_segment).beam_data
                  (audio_append_beam_data (drained_rounds k) unit_segment).read_id).duration +
                ((1 : Nat) : ℚ) / 44100 } : Audio) = drained_rounds (k + 1) := by
        rw [hslot, hdur]
        show ({ audio_append_beam_data (drained_rounds k) unit_segment with
            read_id := (drained_rounds k).read_id + 1,
            time_processed := (drained_rounds k).time_processed - 1 / 44100 +
              ((1 : Nat) : ℚ) / 44100 } : Audio) = _
        rw [ht]
        norm_num [drained_rounds]
      rw [hst] at hcb
      exact Reachable.fill 16 (Reachable.push _ hr unit_segment_simulated) hcb
    · show (drained_rounds k).read_id + 1 = (drained_rounds k).write_id + 1
      rw [hrw]

theorem drained_rounds_ten : drained_rounds 10 = lapped := by
  have h : (drained_rounds 10).beam_data = fun _ => unit_segment := by
    funext i
    fin_cases i <;> rfl
  show Audio.mk _ _ _ _ _ = Audio.mk _ _ _ _ _
  congr 1

theorem unit_segment_duration : unit_segment.duration = 1 / 44100 := by
  rw [unit_segment_eq]
  norm_num [BeamData.duration]

theorem unit_segment_points : unit_segment.points = some [1, 1, 1, 1] := by
  rw [unit_segment_eq]

theorem lapped_iter0 :
    audio_callback_iter 2 lapped 0 [0, 0, 0, 0] =
      Iter.next lapped 1 [64 / 255, 64 / 255, 0, 0] := by
  have ht0 : lapped.time_processed + ((0 : Nat) : ℚ) / 44100 = 0 := by norm_num [lapped]
  have hit := @iter_lerp 2 lapped 0 [0, 0, 0, 0] [1, 1, 1, 1] (by decide)
    unit_segment_points
    (by
      show lapped.time_processed + ((0 : Nat) : ℚ) / 44100 < unit_segment.duration
      rw [ht0, unit_segment_duration]
      norm_num)
  rw [hit, ht0]
  show (match lerp_frame unit_segment [1, 1, 1, 1] (((64 : Nat) : ℚ) / 255) 0 with
    | none => Iter.ub
    | some lr => _) = _
  rw [unit_lerp]
  norm_num

theorem lapped_iter1 :
    audio_callback_iter 2 lapped 1 [64 / 255, 64 / 255, 0, 0] =
      Iter.next lapped_advanced 1 [64 / 255, 64 / 255, 0, 0] := by
  have hit := @iter_adv 2 lapped 1 [64 / 255, 64 / 255, 0, 0] [1, 1, 1, 1]
    (by decide) unit_segment_points
    (by
      show ¬ lapped.time_processed + ((1 : Nat) : ℚ) / 44100 < unit_segment.duration
      rw [unit_segment_duration]
      norm_num [lapped])
    (by decide)
  rw [hit]
  have e : lapped.time_processed -
      ((lapped.beam_data lapped.read_id).num_points : ℚ) * (lapped.beam_data lapped.read_id).dt =
        -(1 / 44100) := by
    show lapped.time_processed - unit_segment.duration = _
    rw [unit_segment_duration]
    norm_num [lapped]
  rw [e]
  rfl

theorem lapped_iter2 :
    audio_callback_iter 2 lapped_advanced 1 [64 / 255, 64 / 255, 0, 0] =
      Iter.next lapped_advanced 2 [64 / 255, 64 / 255, 64 / 255, 64 / 255] := by
  have ht0 : lapped_advanced.time_processed + ((1 : Nat) : ℚ) / 44100 = 0 := by
    norm_num [lapped_advanced]
  have hit := @iter_lerp 2 lapped_advanced 1
    [64 / 255, 64 / 255, 0, 0] [1, 1, 1, 1] (by decide) unit_segment_points
    (by
      show lapped_advanced.time_processed + ((1 : Nat) : ℚ) / 44100 < unit_segment.duration
      rw [ht0, unit_segment_duration]
      norm_num)
  rw [hit, ht0]
  show (match lerp_frame unit_segment [1, 1, 1, 1] (((64 : Nat) : ℚ) / 255) 0 with
    | none => Iter.ub
    | some lr => _) = _
  rw [unit_lerp]
  norm_num

theorem lapped_fill :
    audio_callback lapped 16 =
      some ({ lapped with read_id := 1, time_processed := 1 / 44100 },
        [64 / 255, 64 / 255, 64 / 255, 64 / 255]) := by
  have hloop : audio_callback_loop (16 / 8) lapped 0 (List.replicate (16 / 4) 0) =
      some (false, lapped_advanced, [64 / 255, 64 / 255, 64 / 255, 64 / 255]) := by
    show audio_callback_loop 2 lapped 0 [0, 0, 0, 0] = _
    rw [loop_next lapped_iter0, loop_next lapped_iter1, loop_next lapped_iter2]
    exact loop_brk (iter_done _ _ (by decide))
  rw [callback_of_brk hloop]
  norm_num [lapped_advanced]

theorem lapped_reachable : Reachable Simulated lapped := by
  rw [← drained_rounds_ten]
  exact (drained_rounds_spec 10).1

/-- C7 (the code at a failing input): after `audio_create` and ten rounds of "push one simulated
segment, then a fill that plays it and stops starved", the buffer is starved (read = write = 0,
everything published has been played).  The next fill of two frames does not stay silent: it
replays slot 0 and slot 1 (all four samples are `64/255`, not zero) and ends with read = 1 while
write = 0. -/
theorem C7_starved_fill_replays_old_slots :
    Reachable Simulated lapped ∧ lapped.read_id = lapped.write_id ∧
    audio_callback lapped 16 =
      some ({ lapped with read_id := 1, time_processed := 1 / 44100 },
        [64 / 255, 64 / 255, 64 / 255, 64 / 255]) ∧
    (1 : Fin BEAM_RB_SIZE) ≠ lapped.write_id :=
  ⟨lapped_reachable, rfl, lapped_fill, by decide⟩

end ToneOscillator
